import Mathlib

/-!
# Verification of the opening-to-wall anchoring and wall-segmentation engine

Shallow embedding of the floor-plan core shared by the 2D interactive
snapping canvas (frontend/src/components/PlanMode/PlanModeCanvas.tsx) and the
two 3D reconstruction views (the legacy view and the textured view, whose
TypeScript source files are given unnamed; the relevant functions
`subtractInterval`, `projectOpeningToWall`, `anchorOpeningPose`,
`buildOpeningsForWall` and the per-wall segmentation loop are byte-identical
between the two 3D views apart from the scene mapper they hand the result to).

JavaScript `number` arithmetic is embedded as exact ordered-field arithmetic:
the interval algebra and the wall segmenter are stated over an arbitrary
`LinearOrderedField` (instantiated at `ℚ` for concrete evaluations and at `ℝ`
for the geometric pipeline), and the geometric primitives that take square
roots (`Math.hypot`) are stated over `ℝ` with `Real.sqrt`.
Rendering-only outputs (Three.js mesh construction, `atan2` angles, colors,
shadows) are not modelled; the geometric fields feeding them
(positions, spans, heights) are.
-/

namespace Skad

section IntervalAlgebra

variable {α : Type*} [LinearOrderedField α]

/-- `clamp(value, min, max)` from the 3D views:
`Math.min(max, Math.max(min, value))`. -/
def clamp (value lo hi : α) : α := min hi (max lo value)

/-- The body of the `for (const [start, end] of source)` loop of
`subtractInterval`: the (zero to two) surviving pieces of the single source
interval `i` after removing the cut `c`.  The loop's three `push` sites become
the three list literals. -/
def subtractPiece (i : α × α) (c : α × α) : List (α × α) :=
  if c.2 ≤ i.1 ∨ i.2 ≤ c.1 then [i]
  else
    (if i.1 < c.1 then [(i.1, c.1)] else []) ++
    (if c.2 < i.2 then [(c.2, i.2)] else [])

/-- `subtractInterval(source, cut)` from the 3D views: a degenerate cut
(`cutEnd <= cutStart`) returns `source` unchanged; otherwise every source
interval is replaced by its surviving pieces (the push-loop is rendered as
`flatMap`). -/
def subtractInterval (source : List (α × α)) (cut : α × α) : List (α × α) :=
  if cut.2 ≤ cut.1 then source
  else source.flatMap (fun i => subtractPiece i cut)

end IntervalAlgebra

/-- A `WallOpening` record of the 3D views: the fitted horizontal span along
the wall plus the vertical band to cut out. -/
structure WallOpening (α : Type*) where
  startMm : α
  endMm : α
  bottomMm : α
  topMm : α
deriving DecidableEq, Repr

/-- One solid wall piece emitted by the segmentation loop: its horizontal
span `[startMm, endMm]` along the wall and its vertical span
`[bottomMm, topMm]`.  (The loop also derives the rendering position and
rotation of the box mesh from these four numbers and the wall pose;
that rendering data is not modelled.) -/
structure WallPiece (α : Type*) where
  startMm : α
  endMm : α
  bottomMm : α
  topMm : α
deriving DecidableEq, Repr

section Segmenter

variable {α : Type*} [LinearOrderedField α] [FloorRing α]

/-- `Math.round`, kept inside the scalar field. -/
def jsRound (x : α) : α := (round x : ℤ)

/-- Insert into a list sorted ascending; helper for `sortAsc`. -/
def insertSorted (x : α) : List α → List α
  | [] => [x]
  | y :: ys => if x ≤ y then x :: y :: ys else y :: insertSorted x ys

/-- `.sort((a, b) => a - b)`: numeric ascending sort. -/
def sortAsc : List α → List α
  | [] => []
  | x :: xs => insertSorted x (sortAsc xs)

/-- The split-point deduplication loop of the segmenter: keep a point only
when it differs by at least 1 mm from the previously retained point.  The
code appends to `dedupedSplitPoints` and compares with its last element; here
the accumulator is kept reversed so its head is that last element. -/
def dedupeSplitPoints (pts : List α) : List α :=
  (pts.foldl
    (fun acc p =>
      match acc with
      | [] => [p]
      | prev :: _ => if 1 ≤ |prev - p| then p :: acc else acc)
    []).reverse

/-- Consecutive pairs `(l[i], l[i+1])` of a list: the segmenter's
`for (let i = 0; i < dedupedSplitPoints.length - 1; i++)` iteration. -/
def consecutivePairs : List α → List (α × α)
  | [] => []
  | [_] => []
  | x :: y :: rest => (x, y) :: consecutivePairs (y :: rest)

/-- The vertical solid spans of one horizontal piece: start from the full
band `[0, wallHeightMm]` and subtract every overlapping opening's
`[bottomMm, topMm]` in list order. -/
def verticalSpans (openings : List (WallOpening α)) (wallHeightMm : α) :
    List (α × α) :=
  openings.foldl
    (fun spans o => subtractInterval spans (o.bottomMm, o.topMm))
    [(0, wallHeightMm)]

/-- The per-wall segmentation loop of the 3D views, given the wall's length,
its openings (as produced by `buildOpeningsForWall`) and the wall height:
build the rounded, sorted, deduplicated split points; for every consecutive
pair at least 60 mm apart, subtract the vertical bands of the openings
overlapping it (1 mm tolerance) from `[0, wallHeightMm]` and emit one piece
per surviving span at least 60 mm tall. -/
def segmentPieces (lengthMm : α) (openings : List (WallOpening α))
    (wallHeightMm : α) : List (WallPiece α) :=
  let splitPoints :=
    0 :: lengthMm :: openings.flatMap (fun o => [jsRound o.startMm, jsRound o.endMm])
  let deduped := dedupeSplitPoints (sortAsc splitPoints)
  (consecutivePairs deduped).flatMap fun se =>
    if se.2 - se.1 < 60 then []
    else
      let overlapping := openings.filter fun o =>
        decide (o.startMm < se.2 - 1) && decide (se.1 + 1 < o.endMm)
      (verticalSpans overlapping wallHeightMm).flatMap fun span =>
        if span.2 - span.1 < 60 then []
        else [⟨se.1, se.2, span.1, span.2⟩]

end Segmenter

/-! ## Plan-space geometry (ℝ, with `Math.hypot` as `Real.sqrt`) -/

/-- `Math.hypot(a, b)`. -/
noncomputable def hypot (a b : ℝ) : ℝ := Real.sqrt (a * a + b * b)

/-- A wall centerline segment with its thickness, as consumed by the
projectors (`WallSegment` of types/plan.ts restricted to the fields read). -/
structure WallSegment where
  start : ℝ × ℝ
  stop : ℝ × ℝ
  thickness : ℝ

/-- `OpeningProjection` of the 3D views.  The rendering-only field
`wallAngleRad` (`Math.atan2(dy, dx)`, consumed only by mesh rotation) is not
modelled; every field read by the anchoring and segmentation logic is. -/
structure OpeningProjection where
  startMm : ℝ
  endMm : ℝ
  startPoint : ℝ × ℝ
  endPoint : ℝ × ℝ
  distStartMm : ℝ
  distEndMm : ℝ
  alignment : ℝ

/-- The wall's length `Math.hypot(dx, dz)`, as computed at the top of both
projector variants. -/
noncomputable def wallLen (wall : WallSegment) : ℝ :=
  hypot (wall.stop.1 - wall.start.1) (wall.stop.2 - wall.start.2)

/-- The wall's unit direction `(ux, uz) = (dx, dz) / wallLength`. -/
noncomputable def wallUnit (wall : WallSegment) : ℝ × ℝ :=
  ((wall.stop.1 - wall.start.1) / wallLen wall,
    (wall.stop.2 - wall.start.2) / wallLen wall)

/-- Scalar projection of a point onto the wall axis:
`rsx * ux + rsz * uz` for `(rsx, rsz) = p - wall.start`. -/
noncomputable def projAlong (wall : WallSegment) (p : ℝ × ℝ) : ℝ :=
  (p.1 - wall.start.1) * (wallUnit wall).1 + (p.2 - wall.start.2) * (wallUnit wall).2

/-- Perpendicular distance of a point from the wall centerline:
`|rsx * -uz + rsz * ux|`. -/
noncomputable def perpDist (wall : WallSegment) (p : ℝ × ℝ) : ℝ :=
  |(p.1 - wall.start.1) * -(wallUnit wall).2 + (p.2 - wall.start.2) * (wallUnit wall).1|

/-- The alignment `|((odx, odz) · (ux, uz)) / openingLength|` of an opening
with a wall; the opening's own length is the divisor in both projector
variants (the 2D one computes it once outside its wall loop as `rawLength`,
the 3D one inside as `openingLengthMm`; the value is the same). -/
noncomputable def alignmentOf (wall : WallSegment) (start stop : ℝ × ℝ) : ℝ :=
  |((stop.1 - start.1) * (wallUnit wall).1 + (stop.2 - start.2) * (wallUnit wall).2) /
    hypot (stop.1 - start.1) (stop.2 - start.2)|

/-- `projectOpeningToWall(wall, start, end, minAlignment = 0.9)` of the 3D
views: reject degenerate walls (< 1 mm) and openings (< 20 mm), reject when
the unit-dot alignment is below `minAlignment`, reject when the larger
perpendicular distance of the opening's endpoints from the centerline exceeds
`max(thickness * 0.75, 120)`, clip the projected span to `[0, wallLength]`
and reject when less than 120 mm of span survives. -/
noncomputable def projectOpeningToWall (wall : WallSegment) (start stop : ℝ × ℝ)
    (minAlignment : ℝ := 0.9) : Option OpeningProjection :=
  let wallLengthMm := wallLen wall
  if wallLengthMm < 1 then none
  else
    let openingLengthMm := hypot (stop.1 - start.1) (stop.2 - start.2)
    if openingLengthMm < 20 then none
    else
      let alignment := alignmentOf wall start stop
      if alignment < minAlignment then none
      else
        let projStartRaw := projAlong wall start
        let projEndRaw := projAlong wall stop
        let distStart := perpDist wall start
        let distEnd := perpDist wall stop
        let maxDistanceFromWall := max (wall.thickness * 0.75) 120
        if max distStart distEnd > maxDistanceFromWall then none
        else
          let startMm := clamp (min projStartRaw projEndRaw) 0 wallLengthMm
          let endMm := clamp (max projStartRaw projEndRaw) 0 wallLengthMm
          if endMm - startMm < 120 then none
          else
            some
              { startMm := startMm
                endMm := endMm
                startPoint := (wall.start.1 + (wallUnit wall).1 * startMm,
                  wall.start.2 + (wallUnit wall).2 * startMm)
                endPoint := (wall.start.1 + (wallUnit wall).1 * endMm,
                  wall.start.2 + (wallUnit wall).2 * endMm)
                distStartMm := distStart
                distEndMm := distEnd
                alignment := alignment }

/-- The fit score computed inside the wall loop of `anchorOpeningPose`
(3D views): `distancePenalty + trimPenalty * 0.35 + alignmentPenalty` with
the alignment weight 400. -/
noncomputable def fitScore3D (rawLength : ℝ) (p : OpeningProjection) : ℝ :=
  (p.distStartMm + p.distEndMm) / 2 +
    max 0 (rawLength - (p.endMm - p.startMm)) * 0.35 +
    (1 - p.alignment) * 400

/-- The `best` accumulator loop of `anchorOpeningPose`: fold over the walls,
projecting each with `minAlignment = 0.84`, keeping the lowest-scoring
success (a strict `<` comparison, so the first-encountered wall wins ties). -/
noncomputable def bestProjection (walls : List WallSegment) (start stop : ℝ × ℝ) :
    Option (OpeningProjection × ℝ) :=
  let rawLength := hypot (stop.1 - start.1) (stop.2 - start.2)
  walls.foldl
    (fun best wall =>
      match projectOpeningToWall wall start stop 0.84 with
      | none => best
      | some projection =>
        let score := fitScore3D rawLength projection
        match best with
        | none => some (projection, score)
        | some b => if score < b.2 then some (projection, score) else best)
    none

/-- The pose `linePose` derives for the selected projection, restricted to
the non-rendering fields (`angle` from `Math.atan2` is consumed only by mesh
rotation and is not modelled; `midX`/`midZ` keep the plan-space midpoint with
the scene recentering offsets `cx`, `cz` applied after the mm→m scale). -/
structure LinePose where
  widthMm : ℝ
  midX : ℝ
  midZ : ℝ

/-- `linePose(start, end, cx, cz)` of the legacy 3D view (angle omitted). -/
noncomputable def linePose (start stop : ℝ × ℝ) (cx cz : ℝ) : LinePose :=
  { widthMm := hypot (stop.1 - start.1) (stop.2 - start.2)
    midX := ((start.1 + stop.1) / 2) * 0.001 - cx
    midZ := ((start.2 + stop.2) / 2) * 0.001 - cz }

/-- `anchorOpeningPose(walls, start, end, cx, cz)` of the legacy 3D view:
`null` when the wall list is empty or every projection fails, otherwise the
pose of the best-scoring projection. -/
noncomputable def anchorOpeningPose (walls : List WallSegment)
    (start stop : ℝ × ℝ) (cx cz : ℝ) : Option LinePose :=
  if walls.length = 0 then none
  else
    match bestProjection walls start stop with
    | none => none
    | some best => some (linePose best.1.startPoint best.1.endPoint cx cz)

/-- `DoorInfo` of types/plan.ts restricted to the fields the 3D views read
(the swing arc and nominal width feed only door-leaf rendering). -/
structure DoorInfo where
  start : ℝ × ℝ
  stop : ℝ × ℝ

/-- `WindowInfo` of types/plan.ts restricted to the fields the segmentation
path reads.  `height` is a required `number`; the code's `win.height || 1200`
default fires exactly on the falsy value `0`. -/
structure WindowInfo where
  start : ℝ × ℝ
  stop : ℝ × ℝ
  height : ℝ

/-- `safeSill = clamp(windowSillMm, 0, wallHeightMm - 200)` of
`buildOpeningsForWall`. -/
noncomputable def safeSillOf (wallHeightMm windowSillMm : ℝ) : ℝ :=
  clamp windowSillMm 0 (wallHeightMm - 200)

/-- The clamped usable height of a window in `buildOpeningsForWall`:
`min(clamp(win.height || 1200, 300, wallHeightMm), wallHeightMm - safeSill - 50)`. -/
noncomputable def usableWindowHeight (wallHeightMm windowSillMm winHeight : ℝ) : ℝ :=
  min (clamp (if winHeight = 0 then 1200 else winHeight) 300 wallHeightMm)
    (wallHeightMm - safeSillOf wallHeightMm windowSillMm - 50)

/-- `buildOpeningsForWall(wall, doors, windows, wallHeightMm, doorHeightMm,
windowSillMm)` of the 3D views: each door contributes a band from the floor
up to the clamped door height; each window whose clamped usable height
exceeds 120 contributes a band from the clamped sill; `maybeAddOpening`
drops any opening whose projection onto the wall fails (default
`minAlignment = 0.9`) and normalizes the vertical band into
`[0, wallHeightMm]`.  The two push sites are rendered as `flatMap`s kept in
the doors-then-windows order of the pushes. -/
noncomputable def buildOpeningsForWall (wall : WallSegment)
    (doors : List DoorInfo) (windows : List WindowInfo)
    (wallHeightMm doorHeightMm windowSillMm : ℝ) : List (WallOpening ℝ) :=
  let maybeOpening := fun (start stop : ℝ × ℝ) (bottomMm heightMm : ℝ) =>
    match projectOpeningToWall wall start stop with
    | none => ([] : List (WallOpening ℝ))
    | some projected =>
      let normalizedBottom := clamp bottomMm 0 (wallHeightMm - 1)
      let normalizedTop :=
        clamp (bottomMm + heightMm) (normalizedBottom + 1) wallHeightMm
      [⟨projected.startMm, projected.endMm, normalizedBottom, normalizedTop⟩]
  let safeDoorHeight := clamp doorHeightMm 1000 (wallHeightMm - 40)
  let doorOpenings :=
    doors.flatMap fun door => maybeOpening door.start door.stop 0 safeDoorHeight
  let safeSill := safeSillOf wallHeightMm windowSillMm
  let windowOpenings := windows.flatMap fun win =>
    let usableHeight := usableWindowHeight wallHeightMm windowSillMm win.height
    if usableHeight ≤ 120 then []
    else maybeOpening win.start win.stop safeSill usableHeight
  doorOpenings ++ windowOpenings

/-- One iteration of the wall-segments loop of the legacy 3D view: skip the
wall when its length is below 1 mm, otherwise segment it against the
openings `buildOpeningsForWall` anchored to it. -/
noncomputable def wallPieces (ws : WallSegment) (doors : List DoorInfo)
    (windows : List WindowInfo) (wallHeightMm doorHeightMm windowSillMm : ℝ) :
    List (WallPiece ℝ) :=
  let lengthMm := hypot (ws.stop.1 - ws.start.1) (ws.stop.2 - ws.start.2)
  if lengthMm < 1 then []
  else
    segmentPieces lengthMm
      (buildOpeningsForWall ws doors windows wallHeightMm doorHeightMm windowSillMm)
      wallHeightMm

/-- `DEFAULT_VIEW3D_SETTINGS.wallHeightMm`. -/
def defaultWallHeightMm : ℝ := 2700

/-- `DEFAULT_VIEW3D_SETTINGS.doorHeightMm`. -/
def defaultDoorHeightMm : ℝ := 2100

/-- `DEFAULT_VIEW3D_SETTINGS.windowSillMm`. -/
def defaultWindowSillMm : ℝ := 900

/-! ## The 2D interactive snapping variant (PlanModeCanvas.tsx) -/

/-- `startMm` of the 2D candidate loop: the clipped span start
`Math.max(0, Math.min(wallLength, Math.min(projStartRaw, projEndRaw)))`. -/
noncomputable def spanStart2D (wall : WallSegment) (start stop : ℝ × ℝ) : ℝ :=
  max 0 (min (wallLen wall) (min (projAlong wall start) (projAlong wall stop)))

/-- `endMm` of the 2D candidate loop. -/
noncomputable def spanEnd2D (wall : WallSegment) (start stop : ℝ × ℝ) : ℝ :=
  max 0 (min (wallLen wall) (max (projAlong wall start) (projAlong wall stop)))

/-- The body of the wall loop of `projectOpeningToNearestWall`
(PlanModeCanvas.tsx): the candidate projected endpoints and fit score this
wall contributes, or `none` when it is rejected.  Identical to the 3D
projector except that the lateral-distance floor is 140 mm (not 120 mm),
the alignment weight is 250 (not 400), there is no minimum opening length of
20 mm, and alignment divides by the raw opening length computed once
outside the loop. -/
noncomputable def projectOpeningCandidate2D (wall : WallSegment)
    (start stop : ℝ × ℝ) : Option ((ℝ × ℝ) × (ℝ × ℝ) × ℝ) :=
  let rawLength := hypot (stop.1 - start.1) (stop.2 - start.2)
  let wallLength := wallLen wall
  if wallLength < 1 then none
  else
    let alignment := alignmentOf wall start stop
    if alignment < 0.84 then none
    else
      let distStart := perpDist wall start
      let distEnd := perpDist wall stop
      let maxDistance := max (wall.thickness * 0.75) 140
      if max distStart distEnd > maxDistance then none
      else
        let startMm := spanStart2D wall start stop
        let endMm := spanEnd2D wall start stop
        let projectedLength := endMm - startMm
        if projectedLength < 120 then none
        else
          let projectedStart := (wall.start.1 + (wallUnit wall).1 * startMm,
            wall.start.2 + (wallUnit wall).2 * startMm)
          let projectedEnd := (wall.start.1 + (wallUnit wall).1 * endMm,
            wall.start.2 + (wallUnit wall).2 * endMm)
          let trimPenalty := max 0 (rawLength - projectedLength)
          let distancePenalty := (distStart + distEnd) / 2
          let alignmentPenalty := (1 - alignment) * 250
          some (projectedStart, projectedEnd,
            distancePenalty + trimPenalty * 0.35 + alignmentPenalty)

/-- The `best` accumulator loop of the 2D `projectOpeningToNearestWall`:
keep the lowest-scoring candidate, the first-encountered wall winning ties
(strict `<`). -/
noncomputable def bestCandidate2D (walls : List WallSegment)
    (start stop : ℝ × ℝ) : Option ((ℝ × ℝ) × (ℝ × ℝ) × ℝ) :=
  walls.foldl
    (fun best wall =>
      match projectOpeningCandidate2D wall start stop with
      | none => best
      | some c =>
        match best with
        | none => some c
        | some b => if c.2.2 < b.2.2 then some c else best)
    none

/-- `projectOpeningToNearestWall(start, end, walls)` of PlanModeCanvas.tsx:
returns the raw endpoints unchanged when the wall list is empty, when the
opening is shorter than 1 mm, or when every wall is rejected; otherwise the
best candidate's projected endpoints. -/
noncomputable def projectOpeningToNearestWall (start stop : ℝ × ℝ)
    (walls : List WallSegment) : (ℝ × ℝ) × (ℝ × ℝ) :=
  if walls.length = 0 then (start, stop)
  else if hypot (stop.1 - start.1) (stop.2 - start.2) < 1 then (start, stop)
  else
    match bestCandidate2D walls start stop with
    | none => (start, stop)
    | some best => (best.1, best.2.1)

/-- The shape of the `best` accumulator update shared by the wall loops of
`anchorOpeningPose` and `projectOpeningToNearestWall`: keep the candidate
with the lower score, the incumbent winning ties.  Used to state and prove
the selection lemmas once for both variants. -/
noncomputable def bestStep2 {β γ : Type*} (proj : β → Option γ) (score : γ → ℝ)
    (best : Option γ) (w : β) : Option γ :=
  match proj w with
  | none => best
  | some c =>
    match best with
    | none => some c
    | some b => if score c < score b then some c else best

/-! ## Coordinate transform (coordTransform.ts), embedded over ℚ -/

/-- The `Transform` record of coordTransform.ts. -/
structure Transform where
  toScreen : ℚ × ℚ → ℚ × ℚ
  toWorld : ℚ × ℚ → ℚ × ℚ
  scale : ℚ

/-- `PX_PER_MM` of coordTransform.ts. -/
def pxPerMm : ℚ := 0.15

/-- `createTransform(bbox, canvasWidth, canvasHeight, padding = 60)` of
coordTransform.ts, with JavaScript float arithmetic embedded as exact
rational arithmetic (division by zero follows the total-field convention
`x / 0 = 0`). -/
def createTransform (bbox : (ℚ × ℚ) × ℚ × ℚ) (canvasWidth canvasHeight : ℚ)
    (padding : ℚ := 60) : Transform :=
  let minX := bbox.1.1
  let minY := bbox.1.2
  let maxX := bbox.2.1
  let maxY := bbox.2.2
  let worldW := maxX - minX
  let worldH := maxY - minY
  if worldW = 0 ∨ worldH = 0 then
    { toScreen := fun p =>
        (p.1 * pxPerMm + padding, canvasHeight - p.2 * pxPerMm - padding)
      toWorld := fun s =>
        ((s.1 - padding) / pxPerMm, (canvasHeight - s.2 - padding) / pxPerMm)
      scale := pxPerMm }
  else
    let scaleX := (canvasWidth - padding * 2) / worldW
    let scaleY := (canvasHeight - padding * 2) / worldH
    let scale := min scaleX scaleY
    let offsetX := (canvasWidth - worldW * scale) / 2
    let offsetY := (canvasHeight - worldH * scale) / 2
    { toScreen := fun p =>
        ((p.1 - minX) * scale + offsetX,
          canvasHeight - ((p.2 - minY) * scale + offsetY))
      toWorld := fun s =>
        ((s.1 - offsetX) / scale + minX,
          (canvasHeight - s.2 - offsetY) / scale + minY)
      scale := scale }

/-! ## Interval algebra lemmas -/

section IntervalLemmas

variable {α : Type*} [LinearOrderedField α]

lemma mem_subtractPiece_iff {i c p : α × α} :
    p ∈ subtractPiece i c ↔
      ((c.2 ≤ i.1 ∨ i.2 ≤ c.1) ∧ p = i) ∨
      (¬(c.2 ≤ i.1 ∨ i.2 ≤ c.1) ∧ i.1 < c.1 ∧ p = (i.1, c.1)) ∨
      (¬(c.2 ≤ i.1 ∨ i.2 ≤ c.1) ∧ c.2 < i.2 ∧ p = (c.2, i.2)) := by
  unfold subtractPiece
  by_cases h : c.2 ≤ i.1 ∨ i.2 ≤ c.1
  · rw [if_pos h]
    simp [h]
  · rw [if_neg h]
    by_cases h1 : i.1 < c.1 <;> by_cases h2 : c.2 < i.2 <;> simp [h, h1, h2]

lemma subtractPiece_subset {i c p : α × α} (hp : p ∈ subtractPiece i c) :
    i.1 ≤ p.1 ∧ p.2 ≤ i.2 := by
  rcases mem_subtractPiece_iff.mp hp with ⟨h, rfl⟩ | ⟨h, h1, rfl⟩ | ⟨h, h2, rfl⟩
  · exact ⟨le_refl _, le_refl _⟩
  · push_neg at h
    exact ⟨le_refl _, le_of_lt h.2⟩
  · push_neg at h
    exact ⟨le_of_lt h.1, le_refl _⟩

lemma subtractPiece_valid {i c p : α × α} (hi : i.1 < i.2) (hp : p ∈ subtractPiece i c) :
    p.1 < p.2 := by
  rcases mem_subtractPiece_iff.mp hp with ⟨h, rfl⟩ | ⟨h, h1, rfl⟩ | ⟨h, h2, rfl⟩
  · exact hi
  · exact h1
  · exact h2

lemma subtractPiece_pairwise {i c : α × α} (hc : c.1 < c.2) :
    (subtractPiece i c).Pairwise (fun p q => p.2 ≤ q.1) := by
  unfold subtractPiece
  split_ifs <;> simp_all [List.pairwise_append] <;> linarith

lemma subtractPiece_avoid {i c p : α × α} (hp : p ∈ subtractPiece i c) {x : α}
    (h1 : p.1 ≤ x) (h2 : x ≤ p.2) : ¬(c.1 < x ∧ x < c.2) := by
  rintro ⟨ha, hb⟩
  rcases mem_subtractPiece_iff.mp hp with ⟨h, rfl⟩ | ⟨h, hl, rfl⟩ | ⟨h, hr, rfl⟩
  · rcases h with h | h
    · exact absurd (lt_of_le_of_lt (le_trans h h1) hb) (lt_irrefl _)
    · exact absurd (lt_of_lt_of_le ha (le_trans h2 h)) (lt_irrefl _)
  · exact absurd (lt_of_lt_of_le ha h2) (lt_irrefl _)
  · exact absurd (lt_of_le_of_lt h1 hb) (lt_irrefl _)

lemma subtractInterval_eq_flatMap (source : List (α × α)) {c : α × α} (hc : c.1 < c.2) :
    subtractInterval source c = source.flatMap (fun i => subtractPiece i c) := by
  unfold subtractInterval
  rw [if_neg (not_le.mpr hc)]

lemma subtractInterval_append (l1 l2 : List (α × α)) (c : α × α) :
    subtractInterval (l1 ++ l2) c = subtractInterval l1 c ++ subtractInterval l2 c := by
  unfold subtractInterval
  split_ifs
  · rfl
  · exact List.flatMap_append _ _ _

lemma mem_subtractInterval {source : List (α × α)} {c p : α × α}
    (hp : p ∈ subtractInterval source c) : ∃ i ∈ source, i.1 ≤ p.1 ∧ p.2 ≤ i.2 := by
  unfold subtractInterval at hp
  split_ifs at hp
  · exact ⟨p, hp, le_refl _, le_refl _⟩
  · obtain ⟨i, hi, hpi⟩ := List.mem_flatMap.mp hp
    exact ⟨i, hi, subtractPiece_subset hpi⟩

lemma subtractInterval_valid {source : List (α × α)} {c : α × α}
    (hv : ∀ i ∈ source, i.1 < i.2) :
    ∀ p ∈ subtractInterval source c, p.1 < p.2 := by
  intro p hp
  unfold subtractInterval at hp
  split_ifs at hp
  · exact hv p hp
  · obtain ⟨i, hi, hpi⟩ := List.mem_flatMap.mp hp
    exact subtractPiece_valid (hv i hi) hpi

lemma pairwise_flatMap_subtractPiece {source : List (α × α)} {c : α × α}
    (h : source.Pairwise (fun p q => p.2 ≤ q.1)) (hc : c.1 < c.2) :
    (source.flatMap (fun i => subtractPiece i c)).Pairwise (fun p q => p.2 ≤ q.1) := by
  induction source with
  | nil => simp
  | cons i rest ih =>
    rw [List.pairwise_cons] at h
    rw [List.flatMap_cons, List.pairwise_append]
    refine ⟨subtractPiece_pairwise hc, ih h.2, ?_⟩
    intro p hp q hq
    obtain ⟨j, hj, hqj⟩ := List.mem_flatMap.mp hq
    have h1 := subtractPiece_subset hp
    have h2 := subtractPiece_subset hqj
    have h3 := h.1 j hj
    linarith [h1.2, h2.1]

lemma subtractInterval_pairwise {source : List (α × α)} {c : α × α}
    (h : source.Pairwise (fun p q => p.2 ≤ q.1)) :
    (subtractInterval source c).Pairwise (fun p q => p.2 ≤ q.1) := by
  unfold subtractInterval
  split_ifs with hdeg
  · exact h
  · exact pairwise_flatMap_subtractPiece h (not_le.mp hdeg)

lemma subtractInterval_avoid {source : List (α × α)} {c p : α × α}
    (hp : p ∈ subtractInterval source c) {x : α} (hx1 : p.1 ≤ x) (hx2 : x ≤ p.2) :
    ¬(c.1 < x ∧ x < c.2) := by
  unfold subtractInterval at hp
  split_ifs at hp with hdeg
  · rintro ⟨ha, hb⟩
    linarith
  · obtain ⟨i, _, hpi⟩ := List.mem_flatMap.mp hp
    exact subtractPiece_avoid hpi hx1 hx2

lemma subtractInterval_cover {source : List (α × α)} {c : α × α} {x : α}
    (hx : ∃ i ∈ source, i.1 ≤ x ∧ x ≤ i.2) :
    (∃ p ∈ subtractInterval source c, p.1 ≤ x ∧ x ≤ p.2) ∨ (c.1 ≤ x ∧ x ≤ c.2) := by
  obtain ⟨i, hi, hx1, hx2⟩ := hx
  unfold subtractInterval
  split_ifs with hdeg
  · exact Or.inl ⟨i, hi, hx1, hx2⟩
  · by_cases hcx : c.1 ≤ x ∧ x ≤ c.2
    · exact Or.inr hcx
    · left
      push_neg at hcx
      by_cases hdisj : c.2 ≤ i.1 ∨ i.2 ≤ c.1
      · refine ⟨i, List.mem_flatMap.mpr ⟨i, hi, ?_⟩, hx1, hx2⟩
        rw [mem_subtractPiece_iff]
        exact Or.inl ⟨hdisj, rfl⟩
      · rcases lt_or_le x c.1 with hxc | hxc
        · refine ⟨(i.1, c.1), List.mem_flatMap.mpr ⟨i, hi, ?_⟩, hx1, le_of_lt hxc⟩
          rw [mem_subtractPiece_iff]
          exact Or.inr (Or.inl ⟨hdisj, lt_of_le_of_lt hx1 hxc, rfl⟩)
        · have hcx2 : c.2 < x := hcx hxc
          refine ⟨(c.2, i.2), List.mem_flatMap.mpr ⟨i, hi, ?_⟩, le_of_lt hcx2, hx2⟩
          rw [mem_subtractPiece_iff]
          exact Or.inr (Or.inr ⟨hdisj, lt_of_lt_of_le hcx2 hx2, rfl⟩)

set_option maxHeartbeats 4000000 in
lemma subtractPiece_flatMap_comm (s e a b u v : α) (hc : a < b) (hd : u < v) :
    (subtractPiece (s, e) (a, b)).flatMap (fun p => subtractPiece p (u, v)) =
    (subtractPiece (s, e) (u, v)).flatMap (fun p => subtractPiece p (a, b)) := by
  simp only [subtractPiece]
  split_ifs <;>
    simp only [List.flatMap_cons, List.flatMap_nil, List.flatMap_append, List.append_nil,
      List.nil_append, List.singleton_append, subtractPiece] <;>
    split_ifs <;>
    first
      | rfl
      | (push_neg at *; casesm* _ ∨ _, _ ∧ _ <;> linarith)
      | (simp_all only [List.cons.injEq, Prod.mk.injEq, List.append_nil, List.nil_append,
          List.singleton_append, List.cons_append, and_true, true_and] <;>
          push_neg at * <;> casesm* _ ∨ _, _ ∧ _ <;>
          first | linarith | (constructor <;> linarith))

lemma subtractInterval_comm (source : List (α × α)) (c d : α × α) :
    subtractInterval (subtractInterval source c) d =
    subtractInterval (subtractInterval source d) c := by
  by_cases hcdeg : c.2 ≤ c.1
  · have h1 : subtractInterval source c = source := by unfold subtractInterval; rw [if_pos hcdeg]
    have h2 : ∀ l : List (α × α), subtractInterval l c = l := by
      intro l; unfold subtractInterval; rw [if_pos hcdeg]
    rw [h1, h2]
  · by_cases hddeg : d.2 ≤ d.1
    · have h1 : subtractInterval source d = source := by unfold subtractInterval; rw [if_pos hddeg]
      have h2 : ∀ l : List (α × α), subtractInterval l d = l := by
        intro l; unfold subtractInterval; rw [if_pos hddeg]
      rw [h1, h2]
    · push_neg at hcdeg hddeg
      induction source with
      | nil => simp [subtractInterval]
      | cons i rest ih =>
        have hcons : ∀ (x : α × α) (l : List (α × α)) (cut : α × α), cut.1 < cut.2 →
            subtractInterval (x :: l) cut = subtractPiece x cut ++ subtractInterval l cut := by
          intro x l cut hcut
          unfold subtractInterval
          rw [if_neg (not_le.mpr hcut), if_neg (not_le.mpr hcut), List.flatMap_cons]
        rw [hcons i rest c hcdeg, hcons i rest d hddeg,
          subtractInterval_append, subtractInterval_append, ih]
        congr 1
        obtain ⟨s, e⟩ := i
        obtain ⟨a, b⟩ := c
        obtain ⟨u, v⟩ := d
        rw [subtractInterval_eq_flatMap _ hddeg, subtractInterval_eq_flatMap _ hcdeg]
        exact subtractPiece_flatMap_comm s e a b u v hcdeg hddeg

lemma subtractInterval_foldl_perm {cuts cuts' : List (α × α)}
    (hperm : cuts.Perm cuts') (source : List (α × α)) :
    cuts.foldl subtractInterval source = cuts'.foldl subtractInterval source := by
  exact hperm.foldl_eq' (fun x _ y _ z => subtractInterval_comm z x y) source

end IntervalLemmas


/-! ## C6: order independence of repeated interval subtraction -/

/-- C6: for every list of pairwise-disjoint source intervals and every finite
collection of cuts, applying `subtractInterval` once per cut yields the same
interval list for every order of the cuts. -/
theorem c6_subtract_order_independent {a : Type*} [LinearOrderedField a]
    (source : List (a × a)) (hdisj : source.Pairwise (fun i j => i.2 ≤ j.1))
    (cuts cuts2 : List (a × a)) (hperm : cuts.Perm cuts2) :
    cuts.foldl subtractInterval source = cuts2.foldl subtractInterval source :=
  subtractInterval_foldl_perm hperm source

/-- C6 (witness): subtracting the cuts `(2,4)` and `(6,8)` from
`[(0,10),(20,30)]` in either order gives the same list. -/
theorem c6_subtract_order_independent_witness :
    [((2:ℚ),4),(6,8)].foldl subtractInterval [(0,10),(20,30)] =
      [((6:ℚ),8),(2,4)].foldl subtractInterval [(0,10),(20,30)] :=
  c6_subtract_order_independent [((0:ℚ),10),(20,30)] (by decide)
    [(2,4),(6,8)] [(6,8),(2,4)] (by decide)

/-! ## C10: invariants of a single interval subtraction -/

/-- C10: for every sorted, pairwise-disjoint source list whose intervals all
satisfy `start < end` and every cut, `subtractInterval` returns a list that is
again sorted and pairwise-disjoint, whose intervals all satisfy
`start < end`, are each contained in some source interval, and contain no
point strictly inside the cut. -/
theorem c10_subtractInterval_invariants {a : Type*} [LinearOrderedField a]
    (source : List (a × a)) (cut : a × a)
    (hsorted : source.Pairwise (fun i j => i.2 ≤ j.1))
    (hvalid : ∀ i ∈ source, i.1 < i.2) :
    (subtractInterval source cut).Pairwise (fun i j => i.2 ≤ j.1) ∧
      (∀ p ∈ subtractInterval source cut, p.1 < p.2) ∧
      (∀ p ∈ subtractInterval source cut, ∃ i ∈ source, i.1 ≤ p.1 ∧ p.2 ≤ i.2) ∧
      (∀ p ∈ subtractInterval source cut, ∀ x, p.1 ≤ x → x ≤ p.2 →
        ¬(cut.1 < x ∧ x < cut.2)) :=
  ⟨subtractInterval_pairwise hsorted, subtractInterval_valid hvalid,
    fun _ hp => mem_subtractInterval hp,
    fun _ hp _ h1 h2 => subtractInterval_avoid hp h1 h2⟩

/-- C10 (witness): the invariants instantiated at the source list
`[(0,10),(20,30)]` and the cut `(5,25)`. -/
theorem c10_subtractInterval_invariants_witness :
    (subtractInterval [((0:ℚ),10),(20,30)] (5,25)).Pairwise (fun i j => i.2 ≤ j.1) ∧
      (∀ p ∈ subtractInterval [((0:ℚ),10),(20,30)] (5,25), p.1 < p.2) ∧
      (∀ p ∈ subtractInterval [((0:ℚ),10),(20,30)] (5,25),
        ∃ i ∈ [((0:ℚ),10),(20,30)], i.1 ≤ p.1 ∧ p.2 ≤ i.2) ∧
      (∀ p ∈ subtractInterval [((0:ℚ),10),(20,30)] (5,25), ∀ x, p.1 ≤ x → x ≤ p.2 →
        ¬((5:ℚ) < x ∧ x < 25)) :=
  c10_subtractInterval_invariants [((0:ℚ),10),(20,30)] (5,25) (by decide) (by decide)


/-! ## Hypot evaluation helpers -/

lemma hypot_axis (a : ℝ) (h : 0 ≤ a) : hypot a 0 = a := by
  unfold hypot
  rw [mul_zero, add_zero, Real.sqrt_mul_self h]

lemma hypot_axis_vert (a : ℝ) (h : 0 ≤ a) : hypot 0 a = a := by
  unfold hypot
  rw [mul_zero, zero_add, Real.sqrt_mul_self h]

/-! ## Segmenter lemmas -/

lemma segmentPieces_no_openings {α : Type*} [LinearOrderedField α] [FloorRing α]
    (L H : α) (hL : 60 ≤ L) (hH : 60 ≤ H) :
    segmentPieces L [] H = [⟨0, L, 0, H⟩] := by
  have h0L : (0:α) ≤ L := by linarith
  have habs : (1:α) ≤ |L| := by
    rw [abs_of_nonneg h0L]
    linarith
  have hL60 : ¬(L < 60) := by linarith
  have hH60 : ¬(H < 60) := by linarith
  simp [segmentPieces, sortAsc, insertSorted, dedupeSplitPoints, consecutivePairs,
    verticalSpans, subtractInterval, List.filter, h0L, habs, hL60, hH60]

lemma buildOpeningsForWall_nil (ws : WallSegment) (H dh sill : ℝ) :
    buildOpeningsForWall ws [] [] H dh sill = [] := by
  simp [buildOpeningsForWall]

lemma verticalSpans_cover_aux {α : Type*} [LinearOrderedField α]
    (openings : List (WallOpening α)) (spans : List (α × α)) (x : α)
    (hx : ∃ p ∈ spans, p.1 ≤ x ∧ x ≤ p.2) :
    (∃ p ∈ openings.foldl (fun sp o => subtractInterval sp (o.bottomMm, o.topMm)) spans,
        p.1 ≤ x ∧ x ≤ p.2) ∨
      (∃ o ∈ openings, o.bottomMm ≤ x ∧ x ≤ o.topMm) := by
  induction openings generalizing spans with
  | nil => exact Or.inl hx
  | cons o rest ih =>
    rw [List.foldl_cons]
    rcases subtractInterval_cover (c := (o.bottomMm, o.topMm)) hx with h | h
    · rcases ih _ h with h2 | h2
      · exact Or.inl h2
      · obtain ⟨o2, ho2, hb⟩ := h2
        exact Or.inr ⟨o2, List.mem_cons_of_mem _ ho2, hb⟩
    · exact Or.inr ⟨o, List.mem_cons_self _ _, h⟩

lemma verticalSpans_pairwise_aux {α : Type*} [LinearOrderedField α]
    (openings : List (WallOpening α)) (spans : List (α × α))
    (h : spans.Pairwise (fun p q => p.2 ≤ q.1)) :
    (openings.foldl (fun sp o => subtractInterval sp (o.bottomMm, o.topMm)) spans).Pairwise
      (fun p q => p.2 ≤ q.1) := by
  induction openings generalizing spans with
  | nil => exact h
  | cons o rest ih => exact ih _ (subtractInterval_pairwise h)

/-! ## C4: a wall with no openings -/

/-- C4 (counterexample): a non-degenerate wall (length 30 mm ≥ 1 mm) with no
openings produces zero pieces, not one: the segmenter drops horizontal
segments shorter than 60 mm. -/
theorem c4_no_openings_counterexample :
    (1:ℝ) ≤ hypot (30 - 0) (0 - 0) ∧
      wallPieces ⟨(0, 0), (30, 0), 200⟩ [] [] 2700 2100 900 = [] := by
  have h : hypot ((30:ℝ) - 0) (0 - 0) = 30 := by
    rw [show ((30:ℝ) - 0) = 30 by norm_num, show ((0:ℝ) - 0) = 0 by norm_num]
    exact hypot_axis 30 (by norm_num)
  constructor
  · rw [h]
    norm_num
  · unfold wallPieces
    rw [buildOpeningsForWall_nil]
    simp only [h]
    rw [if_neg (by norm_num)]
    norm_num [segmentPieces, sortAsc, insertSorted, dedupeSplitPoints, consecutivePairs,
      verticalSpans, subtractInterval, List.filter]

/-- C4 (amended): every wall of length at least 60 mm with no openings and a
wall height of at least 60 mm produces exactly one piece spanning the wall's
full length and full height.  (The claim's bound of 1 mm is too weak: the
segmenter drops horizontal segments and vertical spans shorter than 60 mm.) -/
theorem c4_no_openings_single_piece (ws : WallSegment) (H dh sill : ℝ)
    (hL : 60 ≤ hypot (ws.stop.1 - ws.start.1) (ws.stop.2 - ws.start.2))
    (hH : 60 ≤ H) :
    wallPieces ws [] [] H dh sill =
      [⟨0, hypot (ws.stop.1 - ws.start.1) (ws.stop.2 - ws.start.2), 0, H⟩] := by
  unfold wallPieces
  rw [buildOpeningsForWall_nil, if_neg (by push_neg; linarith)]
  exact segmentPieces_no_openings _ _ hL hH

/-- C4 (witness): the wall `(0,0)-(4000,0)` at wall height 2700 yields the
single full piece. -/
theorem c4_no_openings_witness :
    wallPieces ⟨(0, 0), (4000, 0), 200⟩ [] [] 2700 2100 900 =
      [⟨0, 4000, 0, 2700⟩] := by
  have h : hypot
      ((⟨(0, 0), (4000, 0), 200⟩ : WallSegment).stop.1 -
        (⟨(0, 0), (4000, 0), 200⟩ : WallSegment).start.1)
      ((⟨(0, 0), (4000, 0), 200⟩ : WallSegment).stop.2 -
        (⟨(0, 0), (4000, 0), 200⟩ : WallSegment).start.2) = 4000 := by
    show hypot ((4000:ℝ) - 0) ((0:ℝ) - 0) = 4000
    rw [sub_zero, sub_zero]
    exact hypot_axis 4000 (by norm_num)
  rw [c4_no_openings_single_piece ⟨(0, 0), (4000, 0), 200⟩ 2700 2100 900
    (by rw [h]; norm_num) (by norm_num), h]

/-! ## C5: interval subtraction is a partition -/

/-- C5 (counterexample): with the 60 mm emission filter, the union of the
*emitted* vertical spans plus the subtracted bands need not cover `[0, H]`:
an opening band `[0, 2650]` on a 2700 mm wall leaves only the 50 mm sliver
`[2650, 2700]`, which is dropped, so the point 2700 of `[0, 2700]` lies in no
emitted span and in no band. -/
theorem c5_partition_counterexample :
    segmentPieces (4000:ℚ) [⟨0, 4000, 0, 2650⟩] 2700 = [] ∧
      ((0:ℚ) ≤ 2700 ∧ (2700:ℚ) ≤ 2700) ∧
      ¬∃ o ∈ [(⟨0, 4000, 0, 2650⟩ : WallOpening ℚ)],
        o.bottomMm ≤ 2700 ∧ (2700:ℚ) ≤ o.topMm := by
  refine ⟨?_, by norm_num, ?_⟩
  · norm_num [segmentPieces, sortAsc, insertSorted, dedupeSplitPoints, consecutivePairs,
      verticalSpans, subtractInterval, subtractPiece, jsRound, List.filter]
  · simp
    norm_num

/-- C5 (amended): for every wall height `H` and every opening set, the union
of the vertical spans computed by the interval subtraction for a horizontal
piece (before the 60 mm emission filter), together with the union of the
subtracted opening bands, covers `[0, H]`, and those spans do not overlap one
another. -/
theorem c5_partition_amended {α : Type*} [LinearOrderedField α]
    (H : α) (openings : List (WallOpening α)) :
    (∀ x : α, 0 ≤ x → x ≤ H →
      (∃ p ∈ verticalSpans openings H, p.1 ≤ x ∧ x ≤ p.2) ∨
      (∃ o ∈ openings, o.bottomMm ≤ x ∧ x ≤ o.topMm)) ∧
    (verticalSpans openings H).Pairwise (fun p q => p.2 ≤ q.1) := by
  constructor
  · intro x h0 hH
    exact verticalSpans_cover_aux openings [(0, H)] x
      ⟨(0, H), List.mem_singleton_self _, h0, hH⟩
  · exact verticalSpans_pairwise_aux openings [(0, H)] (List.pairwise_singleton _ _)

/-- C5 (witness): at wall height 2700 with the single band `[900, 2100]`, the
point 500 lies in a computed span, discharging the coverage hypotheses at a
concrete input. -/
theorem c5_partition_witness :
    (∃ p ∈ verticalSpans [(⟨0, 4000, 900, 2100⟩ : WallOpening ℚ)] 2700,
        p.1 ≤ 500 ∧ (500:ℚ) ≤ p.2) ∨
      (∃ o ∈ [(⟨0, 4000, 900, 2100⟩ : WallOpening ℚ)],
        o.bottomMm ≤ 500 ∧ (500:ℚ) ≤ o.topMm) :=
  (c5_partition_amended 2700 [⟨0, 4000, 900, 2100⟩]).1 500 (by norm_num) (by norm_num)

/-! ## C9: round trip of `createTransform` -/

/-- C9 (counterexample): the round trip is not exact for every canvas size.
At the bounding box `(0, 0, 100, 100)` (width and height strictly positive)
with canvas `120 × 120` and the default padding `60`, the fitted scale is
`min((120 - 120)/100, (120 - 120)/100) = 0`, and the screen point of the
plan point `(1, 1)` maps back to `(0, 0)`, not `(1, 1)`. -/
theorem c9_roundtrip_counterexample :
    (0 : ℚ) < 100 - 0 ∧ (0 : ℚ) < 100 - 0 ∧
      (createTransform ((0, 0), (100, 100)) 120 120 60).toWorld
          ((createTransform ((0, 0), (100, 100)) 120 120 60).toScreen (1, 1)) ≠
        (1, 1) := by
  refine ⟨by norm_num, by norm_num, ?_⟩
  simp only [createTransform, pxPerMm]
  norm_num

/-- C9 (amended): for every bounding box with strictly positive width and
height, every canvas size and padding for which the computed fit scale
`min((canvasWidth - 2·padding)/worldW, (canvasHeight - 2·padding)/worldH)`
is nonzero, and every plan point `(x, y)`,
`toWorld (toScreen (x, y)) = (x, y)` exactly in rational arithmetic. -/
theorem c9_roundtrip_of_scale_ne_zero
    (minX minY maxX maxY canvasWidth canvasHeight padding x y : ℚ)
    (hw : 0 < maxX - minX) (hh : 0 < maxY - minY)
    (hs : (createTransform ((minX, minY), (maxX, maxY)) canvasWidth canvasHeight
        padding).scale ≠ 0) :
    (createTransform ((minX, minY), (maxX, maxY)) canvasWidth canvasHeight
          padding).toWorld
        ((createTransform ((minX, minY), (maxX, maxY)) canvasWidth canvasHeight
            padding).toScreen (x, y)) =
      (x, y) := by
  have hW : maxX - minX ≠ 0 := ne_of_gt hw
  have hH : maxY - minY ≠ 0 := ne_of_gt hh
  have hcond : ¬(maxX - minX = 0 ∨ maxY - minY = 0) := by
    rintro (h | h)
    · exact hW h
    · exact hH h
  simp only [createTransform, if_neg hcond] at hs ⊢
  refine Prod.ext ?_ ?_ <;> dsimp only <;> field_simp

/-- C9 (witness for the amended theorem): the bounding box `(0, 0, 100, 100)`
on an `800 × 600` canvas with padding `60` round-trips the point `(3, 7)`. -/
theorem c9_roundtrip_witness :
    (createTransform ((0, 0), (100, 100)) 800 600 60).toWorld
        ((createTransform ((0, 0), (100, 100)) 800 600 60).toScreen (3, 7)) =
      (3, 7) :=
  c9_roundtrip_of_scale_ne_zero 0 0 100 100 800 600 60 3 7 (by norm_num)
    (by norm_num) (by simp only [createTransform]; norm_num)

/-! ## Selection-fold lemmas (shared by the 2D and 3D anchor loops) -/

section BestFold

variable {β γ : Type*} (proj : β → Option γ) (score : γ → ℝ)

lemma bestStep2_foldl_none_iff (ws : List β) (acc : Option γ) :
    ws.foldl (bestStep2 proj score) acc = none ↔
      acc = none ∧ ∀ w ∈ ws, proj w = none := by
  induction ws generalizing acc with
  | nil => simp
  | cons w rest ih =>
    rw [List.foldl_cons, ih]
    unfold bestStep2
    cases hw : proj w with
    | none => simp [hw]
    | some c =>
      cases acc with
      | none => simp [hw]
      | some b =>
        by_cases hsc : score c < score b <;> simp [hw, hsc]

lemma bestStep2_foldl_some (ws : List β) (acc : Option γ) (c : γ)
    (h : ws.foldl (bestStep2 proj score) acc = some c) :
    (acc = some c ∧ ∀ w ∈ ws, ∀ q, proj w = some q → score c ≤ score q) ∨
    (∃ pre w post, ws = pre ++ w :: post ∧ proj w = some c ∧
      (∀ b, acc = some b → score c < score b) ∧
      (∀ w2 ∈ pre, ∀ q, proj w2 = some q → score c < score q) ∧
      (∀ w2 ∈ post, ∀ q, proj w2 = some q → score c ≤ score q)) := by
  induction ws generalizing acc with
  | nil =>
    simp only [List.foldl_nil] at h
    exact Or.inl ⟨h, by simp⟩
  | cons w rest ih =>
    rw [List.foldl_cons] at h
    rcases ih _ h with ⟨hacc, hall⟩ | ⟨pre, w1, post, heq, hw1, haccb, hpre, hpost⟩
    · -- the value surviving all of `rest` is the result of the first step
      unfold bestStep2 at hacc
      cases hw : proj w with
      | none =>
        simp only [hw] at hacc
        left
        refine ⟨hacc, ?_⟩
        intro w2 hw2 q hq
        rcases List.mem_cons.mp hw2 with rfl | hw2
        · rw [hw] at hq
          cases hq
        · exact hall w2 hw2 q hq
      | some cw =>
        cases acc with
        | none =>
          simp only [hw, Option.some.injEq] at hacc
          subst hacc
          right
          exact ⟨[], w, rest, rfl, hw, by simp, by simp, hall⟩
        | some b =>
          simp only [hw] at hacc
          by_cases hlt : score cw < score b
          · rw [if_pos hlt] at hacc
            simp only [Option.some.injEq] at hacc
            subst hacc
            right
            refine ⟨[], w, rest, rfl, hw, ?_, by simp, hall⟩
            intro b' hb'
            simp only [Option.some.injEq] at hb'
            subst hb'
            exact hlt
          · rw [if_neg hlt] at hacc
            simp only [Option.some.injEq] at hacc
            subst hacc
            left
            refine ⟨rfl, ?_⟩
            intro w2 hw2 q hq
            rcases List.mem_cons.mp hw2 with rfl | hw2
            · rw [hw] at hq
              simp only [Option.some.injEq] at hq
              subst hq
              exact le_of_not_lt hlt
            · exact hall w2 hw2 q hq
    · -- the result was installed somewhere inside `rest`
      right
      have hstep_strict : ∀ q, proj w = some q → score c < score q := by
        intro q hq
        unfold bestStep2 at haccb
        cases acc with
        | none =>
          simp only [hq] at haccb
          exact haccb q rfl
        | some b =>
          simp only [hq] at haccb
          by_cases hlt : score q < score b
          · rw [if_pos hlt] at haccb
            exact haccb q rfl
          · rw [if_neg hlt] at haccb
            exact lt_of_lt_of_le (haccb b rfl) (le_of_not_lt hlt)
      refine ⟨w :: pre, w1, post, by rw [heq, List.cons_append], hw1, ?_, ?_, hpost⟩
      · intro b hb
        subst hb
        unfold bestStep2 at haccb
        cases hw : proj w with
        | none =>
          simp only [hw] at haccb
          exact haccb b rfl
        | some cw =>
          simp only [hw] at haccb
          by_cases hlt : score cw < score b
          · rw [if_pos hlt] at haccb
            exact lt_trans (haccb cw rfl) hlt
          · rw [if_neg hlt] at haccb
            exact haccb b rfl
      · intro w2 hw2 q hq
        rcases List.mem_cons.mp hw2 with rfl | hw2
        · exact hstep_strict q hq
        · exact hpre w2 hw2 q hq

end BestFold

lemma bestCandidate2D_eq_foldl (walls : List WallSegment) (s e : ℝ × ℝ) :
    bestCandidate2D walls s e =
      walls.foldl
        (bestStep2 (fun w => projectOpeningCandidate2D w s e) (fun c => c.2.2)) none := by
  unfold bestCandidate2D
  congr 1
  funext best wall
  unfold bestStep2
  cases hp : projectOpeningCandidate2D wall s e <;> cases best <;> simp [hp]

lemma bestProjection_eq_foldl (walls : List WallSegment) (s e : ℝ × ℝ) :
    bestProjection walls s e =
      walls.foldl
        (bestStep2
          (fun w => (projectOpeningToWall w s e 0.84).map
            (fun p => (p, fitScore3D (hypot (e.1 - s.1) (e.2 - s.2)) p)))
          Prod.snd) none := by
  show List.foldl
      (fun best wall =>
        match projectOpeningToWall wall s e 0.84 with
        | none => best
        | some projection =>
          match best with
          | none => some (projection, fitScore3D (hypot (e.1 - s.1) (e.2 - s.2)) projection)
          | some b =>
            if fitScore3D (hypot (e.1 - s.1) (e.2 - s.2)) projection < b.2 then
              some (projection, fitScore3D (hypot (e.1 - s.1) (e.2 - s.2)) projection)
            else best)
      none walls =
    List.foldl
      (bestStep2
        (fun w => (projectOpeningToWall w s e 0.84).map
          (fun p => (p, fitScore3D (hypot (e.1 - s.1) (e.2 - s.2)) p)))
        Prod.snd)
      none walls
  congr 1
  funext best wall
  unfold bestStep2
  cases hp : projectOpeningToWall wall s e 0.84 <;> cases best <;> simp [hp]

lemma candidate2D_score_eq (w : WallSegment) (s e : ℝ × ℝ) (c : (ℝ × ℝ) × (ℝ × ℝ) × ℝ)
    (h : projectOpeningCandidate2D w s e = some c) :
    c.2.2 = (perpDist w s + perpDist w e) / 2 +
      max 0 (hypot (e.1 - s.1) (e.2 - s.2) - (spanEnd2D w s e - spanStart2D w s e)) * 0.35 +
      (1 - alignmentOf w s e) * 250 := by
  simp only [projectOpeningCandidate2D] at h
  split_ifs at h
  simp only [Option.some.injEq] at h
  subst h
  rfl

/-- C3: for every non-empty wall list and opening, both anchor variants
evaluate the projection against every wall with minimum alignment 0.84
(result is `none` exactly when every wall fails); every successful 2D
candidate is scored `distance_penalty + trim_penalty * 0.35 +
(1 - alignment) * 250` (the average-distance, trim and alignment terms spelled
out below), every successful 3D projection is scored with weight 400; and the
selected result is a success of minimal score whose wall precedes, in
iteration order, every strictly-better-scoring... i.e. every earlier success
scores strictly greater, so ties go to the first-encountered wall. -/
theorem c3_lowest_score_selection (walls : List WallSegment) (s e : ℝ × ℝ)
    (hne : walls ≠ []) :
    ((bestProjection walls s e = none ↔
        ∀ w ∈ walls, projectOpeningToWall w s e 0.84 = none) ∧
      ∀ p sc, bestProjection walls s e = some (p, sc) →
        sc = (p.distStartMm + p.distEndMm) / 2 +
            max 0 (hypot (e.1 - s.1) (e.2 - s.2) - (p.endMm - p.startMm)) * 0.35 +
            (1 - p.alignment) * 400 ∧
        ∃ pre w post, walls = pre ++ w :: post ∧
          projectOpeningToWall w s e 0.84 = some p ∧
          (∀ w2 ∈ walls, ∀ q, projectOpeningToWall w2 s e 0.84 = some q →
            sc ≤ fitScore3D (hypot (e.1 - s.1) (e.2 - s.2)) q) ∧
          (∀ w2 ∈ pre, ∀ q, projectOpeningToWall w2 s e 0.84 = some q →
            sc < fitScore3D (hypot (e.1 - s.1) (e.2 - s.2)) q)) ∧
    ((bestCandidate2D walls s e = none ↔
        ∀ w ∈ walls, projectOpeningCandidate2D w s e = none) ∧
      (∀ w c, projectOpeningCandidate2D w s e = some c →
        c.2.2 = (perpDist w s + perpDist w e) / 2 +
          max 0 (hypot (e.1 - s.1) (e.2 - s.2) - (spanEnd2D w s e - spanStart2D w s e)) * 0.35 +
          (1 - alignmentOf w s e) * 250) ∧
      ∀ c, bestCandidate2D walls s e = some c →
        ∃ pre w post, walls = pre ++ w :: post ∧
          projectOpeningCandidate2D w s e = some c ∧
          (∀ w2 ∈ walls, ∀ q, projectOpeningCandidate2D w2 s e = some q →
            c.2.2 ≤ q.2.2) ∧
          (∀ w2 ∈ pre, ∀ q, projectOpeningCandidate2D w2 s e = some q →
            c.2.2 < q.2.2)) := by
  refine ⟨⟨?_, ?_⟩, ⟨?_, fun w c h => candidate2D_score_eq w s e c h, ?_⟩⟩
  · rw [bestProjection_eq_foldl, bestStep2_foldl_none_iff]
    simp [Option.map_eq_none']
  · intro p sc h
    rw [bestProjection_eq_foldl] at h
    rcases bestStep2_foldl_some _ _ walls none (p, sc) h with ⟨habs, _⟩ | hspec
    · cases habs
    obtain ⟨pre, w1, post, heq, hw1, _, hpre, hpost⟩ := hspec
    rw [Option.map_eq_some'] at hw1
    obtain ⟨p1, hp1, hpair⟩ := hw1
    have hp : p1 = p := congrArg Prod.fst hpair
    have hsc : sc = fitScore3D (hypot (e.1 - s.1) (e.2 - s.2)) p := by
      have := congrArg Prod.snd hpair
      simp only at this
      rw [← this, hp]
    subst hp
    constructor
    · rw [hsc]
      rfl
    refine ⟨pre, w1, post, heq, hp1, ?_, ?_⟩
    · intro w2 hw2 q hq
      rw [heq] at hw2
      rcases List.mem_append.mp hw2 with hw2 | hw2
      · exact le_of_lt (hpre w2 hw2 (q, fitScore3D (hypot (e.1 - s.1) (e.2 - s.2)) q)
          (by rw [hq]; rfl))
      rcases List.mem_cons.mp hw2 with rfl | hw2
      · rw [hp1] at hq
        simp only [Option.some.injEq] at hq
        subst hq
        rw [hsc]
      · exact hpost w2 hw2 (q, fitScore3D (hypot (e.1 - s.1) (e.2 - s.2)) q)
          (by rw [hq]; rfl)
    · intro w2 hw2 q hq
      exact hpre w2 hw2 (q, fitScore3D (hypot (e.1 - s.1) (e.2 - s.2)) q) (by rw [hq]; rfl)
  · rw [bestCandidate2D_eq_foldl, bestStep2_foldl_none_iff]
    simp
  · intro c h
    rw [bestCandidate2D_eq_foldl] at h
    rcases bestStep2_foldl_some _ _ walls none c h with ⟨habs, _⟩ | hspec
    · cases habs
    obtain ⟨pre, w1, post, heq, hw1, _, hpre, hpost⟩ := hspec
    refine ⟨pre, w1, post, heq, hw1, ?_, hpre⟩
    intro w2 hw2 q hq
    rw [heq] at hw2
    rcases List.mem_append.mp hw2 with hw2 | hw2
    · exact le_of_lt (hpre w2 hw2 q hq)
    rcases List.mem_cons.mp hw2 with rfl | hw2
    · rw [hw1] at hq
      simp only [Option.some.injEq] at hq
      subst hq
      exact le_refl _
    · exact hpost w2 hw2 q hq

/-- C8: when projection fails against every candidate wall, the 3D anchoring
returns `none` (no error), and the 2D caller returns the opening's own raw
endpoints unchanged. -/
theorem c8_no_match_fallback (walls : List WallSegment) (s e : ℝ × ℝ) (cx cz : ℝ)
    (h3 : ∀ w ∈ walls, projectOpeningToWall w s e 0.84 = none)
    (h2 : ∀ w ∈ walls, projectOpeningCandidate2D w s e = none) :
    anchorOpeningPose walls s e cx cz = none ∧
      projectOpeningToNearestWall s e walls = (s, e) := by
  have hb3 : bestProjection walls s e = none := by
    rw [bestProjection_eq_foldl, bestStep2_foldl_none_iff]
    exact ⟨rfl, fun w hw => by rw [h3 w hw]; rfl⟩
  have hb2 : bestCandidate2D walls s e = none := by
    rw [bestCandidate2D_eq_foldl, bestStep2_foldl_none_iff]
    exact ⟨rfl, h2⟩
  constructor
  · unfold anchorOpeningPose
    rw [hb3]
    split_ifs <;> rfl
  · unfold projectOpeningToNearestWall
    rw [hb2]
    split_ifs <;> rfl

/-! ## C3 and C8 witnesses, C2, C1, C7 -/

/-- C2 (amended): an opening whose larger endpoint distance from the wall
centerline exceeds `max(thickness * 0.75, 120mm)` is rejected by the 3D
projector (for every minimum alignment), and one exceeding
`max(thickness * 0.75, 140mm)` is rejected by the 2D interactive snapping
variant — whose floor is 140 mm, not the 120 mm the claim states. -/
theorem c2_distance_rejection_amended (wall : WallSegment) (s e : ℝ × ℝ) (m : ℝ) :
    (max (perpDist wall s) (perpDist wall e) > max (wall.thickness * 0.75) 120 →
      projectOpeningToWall wall s e m = none) ∧
    (max (perpDist wall s) (perpDist wall e) > max (wall.thickness * 0.75) 140 →
      projectOpeningCandidate2D wall s e = none) := by
  constructor
  · intro h
    simp only [projectOpeningToWall]
    split_ifs with h1 h2 h3 h4 h5 <;> first | rfl | exact absurd h h4
  · intro h
    simp only [projectOpeningCandidate2D]
    split_ifs with h1 h2 h3 h4 <;> first | rfl | exact absurd h h3

/-- C2 (counterexample): on a 100 mm-thick wall, a parallel opening offset
laterally by 130 mm exceeds `max(thickness * 0.75, 120mm) = 120`, yet the 2D
interactive snapping variant (floor 140 mm) still anchors it to the wall,
snapping its endpoints onto the centerline. -/
theorem c2_distance_rejection_counterexample :
    max (perpDist ⟨(0, 0), (4000, 0), 100⟩ (1000, 130))
        (perpDist ⟨(0, 0), (4000, 0), 100⟩ (1900, 130)) >
      max ((100:ℝ) * 0.75) 120 ∧
    projectOpeningToNearestWall (1000, 130) (1900, 130) [⟨(0, 0), (4000, 0), 100⟩] =
      ((1000, 0), (1900, 0)) := by
  have e1 : hypot (4000:ℝ) 0 = 4000 := hypot_axis _ (by norm_num)
  have e2 : hypot (900:ℝ) 0 = 900 := hypot_axis _ (by norm_num)
  have hp1 : perpDist ⟨(0, 0), (4000, 0), 100⟩ (1000, 130) = 130 := by
    norm_num [perpDist, wallUnit, wallLen, e1]
  have hp2 : perpDist ⟨(0, 0), (4000, 0), 100⟩ (1900, 130) = 130 := by
    norm_num [perpDist, wallUnit, wallLen, e1]
  have hc : projectOpeningCandidate2D ⟨(0, 0), (4000, 0), 100⟩ (1000, 130) (1900, 130) =
      some ((1000, 0), (1900, 0), 130) := by
    norm_num [projectOpeningCandidate2D, spanStart2D, spanEnd2D, wallLen, wallUnit,
      alignmentOf, perpDist, projAlong, e1, e2]
  have hb : bestCandidate2D [⟨(0, 0), (4000, 0), 100⟩] (1000, 130) (1900, 130) =
      some ((1000, 0), (1900, 0), 130) := by
    unfold bestCandidate2D
    simp only [List.foldl_cons, List.foldl_nil, hc]
  refine ⟨by rw [hp1, hp2]; norm_num, ?_⟩
  unfold projectOpeningToNearestWall
  rw [hb]
  norm_num [e2]

/-- C2 (witness): at lateral offset 150 mm from a 100 mm-thick wall both
thresholds are exceeded and both projector variants reject. -/
theorem c2_distance_rejection_witness :
    (max (perpDist ⟨(0, 0), (4000, 0), 100⟩ (1000, 150))
        (perpDist ⟨(0, 0), (4000, 0), 100⟩ (1900, 150)) >
      max ((100:ℝ) * 0.75) 120 ∧
      projectOpeningToWall ⟨(0, 0), (4000, 0), 100⟩ (1000, 150) (1900, 150) 0.9 = none) ∧
    (max (perpDist ⟨(0, 0), (4000, 0), 100⟩ (1000, 150))
        (perpDist ⟨(0, 0), (4000, 0), 100⟩ (1900, 150)) >
      max ((100:ℝ) * 0.75) 140 ∧
      projectOpeningCandidate2D ⟨(0, 0), (4000, 0), 100⟩ (1000, 150) (1900, 150) = none) := by
  have e1 : hypot (4000:ℝ) 0 = 4000 := hypot_axis _ (by norm_num)
  have hp1 : perpDist ⟨(0, 0), (4000, 0), 100⟩ (1000, 150) = 150 := by
    norm_num [perpDist, wallUnit, wallLen, e1]
  have hp2 : perpDist ⟨(0, 0), (4000, 0), 100⟩ (1900, 150) = 150 := by
    norm_num [perpDist, wallUnit, wallLen, e1]
  have h1 : max (perpDist ⟨(0, 0), (4000, 0), 100⟩ (1000, 150))
      (perpDist ⟨(0, 0), (4000, 0), 100⟩ (1900, 150)) > max ((100:ℝ) * 0.75) 120 := by
    rw [hp1, hp2]
    norm_num
  have h2 : max (perpDist ⟨(0, 0), (4000, 0), 100⟩ (1000, 150))
      (perpDist ⟨(0, 0), (4000, 0), 100⟩ (1900, 150)) > max ((100:ℝ) * 0.75) 140 := by
    rw [hp1, hp2]
    norm_num
  exact ⟨⟨h1, (c2_distance_rejection_amended ⟨(0, 0), (4000, 0), 100⟩ (1000, 150) (1900, 150) 0.9).1 h1⟩,
    ⟨h2, (c2_distance_rejection_amended ⟨(0, 0), (4000, 0), 100⟩ (1000, 150) (1900, 150) 0.9).2 h2⟩⟩

/-- C8 (witness): a perpendicular opening projects onto no wall; the 3D
anchor returns `none` and the 2D snap returns the raw endpoints. -/
theorem c8_no_match_witness :
    anchorOpeningPose [⟨(0, 0), (4000, 0), 200⟩] (1000, 500) (1000, 1500) 0 0 = none ∧
      projectOpeningToNearestWall (1000, 500) (1000, 1500) [⟨(0, 0), (4000, 0), 200⟩] =
        ((1000, 500), (1000, 1500)) := by
  have e1 : hypot (4000:ℝ) 0 = 4000 := hypot_axis _ (by norm_num)
  have e2 : hypot (0:ℝ) 1000 = 1000 := hypot_axis_vert _ (by norm_num)
  refine c8_no_match_fallback [⟨(0, 0), (4000, 0), 200⟩] (1000, 500) (1000, 1500) 0 0 ?_ ?_
  · intro w hw
    rw [List.mem_singleton] at hw
    subst hw
    norm_num [projectOpeningToWall, wallLen, wallUnit, alignmentOf, e1, e2]
  · intro w hw
    rw [List.mem_singleton] at hw
    subst hw
    norm_num [projectOpeningCandidate2D, wallLen, wallUnit, alignmentOf, e1, e2]

/-- C3 (witness): instantiated on the single wall `(0,0)-(4000,0)` and the
opening `(1000,0)-(1900,0)`, whose best projection scores
`(0+0)/2 + max(0, 900-900)*0.35 + (1-1)*400 = 0`. -/
theorem c3_lowest_score_witness :
    (bestProjection [⟨(0, 0), (4000, 0), 200⟩] (1000, 0) (1900, 0) = none ↔
      ∀ w ∈ [(⟨(0, 0), (4000, 0), 200⟩ : WallSegment)],
        projectOpeningToWall w (1000, 0) (1900, 0) 0.84 = none) ∧
    ((0:ℝ) =
      ((⟨1000, 1900, (1000, 0), (1900, 0), 0, 0, 1⟩ : OpeningProjection).distStartMm +
        (⟨1000, 1900, (1000, 0), (1900, 0), 0, 0, 1⟩ : OpeningProjection).distEndMm) / 2 +
      max 0 (hypot ((1900:ℝ) - 1000) (0 - 0) -
        ((⟨1000, 1900, (1000, 0), (1900, 0), 0, 0, 1⟩ : OpeningProjection).endMm -
          (⟨1000, 1900, (1000, 0), (1900, 0), 0, 0, 1⟩ : OpeningProjection).startMm)) * 0.35 +
      (1 - (⟨1000, 1900, (1000, 0), (1900, 0), 0, 0, 1⟩ : OpeningProjection).alignment) * 400) := by
  have e1 : hypot (4000:ℝ) 0 = 4000 := hypot_axis _ (by norm_num)
  have e2 : hypot (900:ℝ) 0 = 900 := hypot_axis _ (by norm_num)
  have hproj : projectOpeningToWall ⟨(0, 0), (4000, 0), 200⟩ (1000, 0) (1900, 0) 0.84 =
      some ⟨1000, 1900, (1000, 0), (1900, 0), 0, 0, 1⟩ := by
    norm_num [projectOpeningToWall, wallLen, wallUnit, alignmentOf, perpDist, projAlong,
      clamp, e1, e2]
  have hbp : bestProjection [⟨(0, 0), (4000, 0), 200⟩] (1000, 0) (1900, 0) =
      some (⟨1000, 1900, (1000, 0), (1900, 0), 0, 0, 1⟩, 0) := by
    unfold bestProjection
    simp only [List.foldl_cons, List.foldl_nil, hproj]
    norm_num [fitScore3D, e2]
  exact ⟨(c3_lowest_score_selection [⟨(0, 0), (4000, 0), 200⟩] (1000, 0) (1900, 0)
      (by simp)).1.1,
    ((c3_lowest_score_selection [⟨(0, 0), (4000, 0), 200⟩] (1000, 0) (1900, 0)
      (by simp)).1.2 _ 0 hbp).1⟩

/-- Scenario A, step 1: the door `(1000,0)-(1900,0)` at the default door
height 2100 anchors to the wall `(0,0)-(4000,0)` as the single opening
`[1000,1900] x [0,2100]` (wall height = clamp(2700, 1800, 6000) = 2700). -/
lemma scenarioA_openings :
    buildOpeningsForWall ⟨(0, 0), (4000, 0), 200⟩ [⟨(1000, 0), (1900, 0)⟩] []
      (clamp defaultWallHeightMm 1800 6000) defaultDoorHeightMm defaultWindowSillMm =
      [⟨1000, 1900, 0, 2100⟩] := by
  have e1 : hypot (4000:ℝ) 0 = 4000 := hypot_axis _ (by norm_num)
  have e2 : hypot (900:ℝ) 0 = 900 := hypot_axis _ (by norm_num)
  have hproj : projectOpeningToWall ⟨(0, 0), (4000, 0), 200⟩ (1000, 0) (1900, 0) =
      some ⟨1000, 1900, (1000, 0), (1900, 0), 0, 0, 1⟩ := by
    norm_num [projectOpeningToWall, wallLen, wallUnit, alignmentOf, perpDist, projAlong,
      clamp, e1, e2]
  simp only [buildOpeningsForWall, List.flatMap_cons, List.flatMap_nil]
  rw [hproj]
  norm_num [clamp, defaultWallHeightMm, defaultDoorHeightMm, defaultWindowSillMm]

/-- Scenario A, step 2: segmentation of the wall `(0,0)-(4000,0)` with that
door emits three pieces: `[0,1000]` and `[1900,4000]` at full height
`[0,2700]`, and the lintel `[1000,1900] x [2100,2700]` above the door. -/
lemma scenarioA_pieces :
    wallPieces ⟨(0, 0), (4000, 0), 200⟩ [⟨(1000, 0), (1900, 0)⟩] []
      (clamp defaultWallHeightMm 1800 6000) defaultDoorHeightMm defaultWindowSillMm =
      [⟨0, 1000, 0, 2700⟩, ⟨1000, 1900, 2100, 2700⟩, ⟨1900, 4000, 0, 2700⟩] := by
  have e1 : hypot (4000:ℝ) 0 = 4000 := hypot_axis _ (by norm_num)
  unfold wallPieces
  rw [scenarioA_openings]
  have hl : hypot ((⟨(0, 0), (4000, 0), 200⟩ : WallSegment).stop.1 -
      (⟨(0, 0), (4000, 0), 200⟩ : WallSegment).start.1)
      ((⟨(0, 0), (4000, 0), 200⟩ : WallSegment).stop.2 -
      (⟨(0, 0), (4000, 0), 200⟩ : WallSegment).start.2) = 4000 := by
    show hypot ((4000:ℝ) - 0) ((0:ℝ) - 0) = 4000
    rw [sub_zero, sub_zero]
    exact e1
  rw [hl]
  rw [if_neg (by norm_num)]
  norm_num [segmentPieces, sortAsc, insertSorted, dedupeSplitPoints, consecutivePairs,
    verticalSpans, subtractInterval, subtractPiece, jsRound, List.filter, clamp,
    defaultWallHeightMm]

/-- C7 (amended): a window's opening is excluded from segmentation exactly
when its clamped usable height is at most 120 mm (not merely non-positive) or
its projection onto the wall fails; every window with usable height above
120 mm that projects successfully is passed to the segmenter with its clamped
vertical band `[clamp(safeSill, 0, H-1), clamp(safeSill + usable, bottom+1, H)]`. -/
theorem c7_window_clamp_exclusion (wall : WallSegment) (win : WindowInfo) (H dh sill : ℝ) :
    (buildOpeningsForWall wall [] [win] H dh sill = [] ↔
      usableWindowHeight H sill win.height ≤ 120 ∨
        projectOpeningToWall wall win.start win.stop = none) ∧
    (∀ p, projectOpeningToWall wall win.start win.stop = some p →
      120 < usableWindowHeight H sill win.height →
      buildOpeningsForWall wall [] [win] H dh sill =
        [⟨p.startMm, p.endMm, clamp (safeSillOf H sill) 0 (H - 1),
          clamp (safeSillOf H sill + usableWindowHeight H sill win.height)
            (clamp (safeSillOf H sill) 0 (H - 1) + 1) H⟩]) := by
  constructor
  · simp only [buildOpeningsForWall, List.flatMap_cons, List.flatMap_nil, List.nil_append]
    by_cases hu : usableWindowHeight H sill win.height ≤ 120
    · rw [if_pos hu]
      simp [hu]
    · rw [if_neg hu]
      cases hp : projectOpeningToWall wall win.start win.stop with
      | none => simp [hp, hu]
      | some p => simp [hp, hu]
  · intro p hp h120
    simp only [buildOpeningsForWall, List.flatMap_cons, List.flatMap_nil, List.nil_append]
    rw [if_neg (not_le.mpr h120), hp]
    simp

/-- C7 (counterexample): a window perpendicular to the wall has positive
clamped usable height (1200 mm) yet is not passed to the segmenter — its
projection fails the alignment check, a rejection cause the claim omits. -/
theorem c7_window_counterexample :
    0 < usableWindowHeight 2700 900
        (⟨(1000, 500), (1000, 1500), 1200⟩ : WindowInfo).height ∧
      buildOpeningsForWall ⟨(0, 0), (4000, 0), 200⟩ []
        [⟨(1000, 500), (1000, 1500), 1200⟩] 2700 2100 900 = [] := by
  have e1 : hypot (4000:ℝ) 0 = 4000 := hypot_axis _ (by norm_num)
  have e2 : hypot (0:ℝ) 1000 = 1000 := hypot_axis_vert _ (by norm_num)
  have hp : projectOpeningToWall ⟨(0, 0), (4000, 0), 200⟩ (1000, 500) (1000, 1500) = none := by
    norm_num [projectOpeningToWall, wallLen, wallUnit, alignmentOf, e1, e2]
  constructor
  · norm_num [usableWindowHeight, safeSillOf, clamp]
  · simp only [buildOpeningsForWall, List.flatMap_cons, List.flatMap_nil, List.nil_append]
    rw [if_neg (by norm_num [usableWindowHeight, safeSillOf, clamp] :
      ¬(usableWindowHeight 2700 900
          (⟨(1000, 500), (1000, 1500), 1200⟩ : WindowInfo).height ≤ 120))]
    rw [hp]
    rfl

/-- C7 (witness): the aligned window `(500,0)-(1500,0)` (height 1200, sill
900, wall height 2700) is passed with the clamped band `[900, 2100]`. -/
theorem c7_window_witness :
    buildOpeningsForWall ⟨(0, 0), (4000, 0), 200⟩ [] [⟨(500, 0), (1500, 0), 1200⟩]
      2700 2100 900 = [⟨500, 1500, 900, 2100⟩] := by
  have e1 : hypot (4000:ℝ) 0 = 4000 := hypot_axis _ (by norm_num)
  have e2 : hypot (1000:ℝ) 0 = 1000 := hypot_axis _ (by norm_num)
  have hp : projectOpeningToWall ⟨(0, 0), (4000, 0), 200⟩ (500, 0) (1500, 0) =
      some ⟨500, 1500, (500, 0), (1500, 0), 0, 0, 1⟩ := by
    norm_num [projectOpeningToWall, wallLen, wallUnit, alignmentOf, perpDist, projAlong,
      clamp, e1, e2]
  have h := (c7_window_clamp_exclusion ⟨(0, 0), (4000, 0), 200⟩ ⟨(500, 0), (1500, 0), 1200⟩
      2700 2100 900).2 ⟨500, 1500, (500, 0), (1500, 0), 0, 0, 1⟩ hp
      (by norm_num [usableWindowHeight, safeSillOf, clamp])
  rw [h]
  norm_num [clamp, safeSillOf, usableWindowHeight]

/-- C1 (counterexample): wall segmentation of Scenario A (wall
`(0,0)-(4000,0)`, thickness 200, door `(1000,0)-(1900,0)` at the default door
height 2100 under the default wall height 2700) emits 3 pieces, not 2, and
the horizontal span `[1000,1900]` does produce a piece: the lintel band
`[2100,2700]` above the door. -/
theorem c1_scenarioA_counterexample :
    (wallPieces ⟨(0, 0), (4000, 0), 200⟩ [⟨(1000, 0), (1900, 0)⟩] []
        (clamp defaultWallHeightMm 1800 6000) defaultDoorHeightMm
        defaultWindowSillMm).length = 3 ∧
      ∃ p ∈ wallPieces ⟨(0, 0), (4000, 0), 200⟩ [⟨(1000, 0), (1900, 0)⟩] []
          (clamp defaultWallHeightMm 1800 6000) defaultDoorHeightMm
          defaultWindowSillMm,
        p.startMm = 1000 ∧ p.endMm = 1900 := by
  rw [scenarioA_pieces]
  refine ⟨rfl, ⟨1000, 1900, 2100, 2700⟩, by simp, rfl, rfl⟩

/-- C1 (amended): for the wall from `(0,0)` to `(4000,0)` with thickness 200
and a single door from `(1000,0)` to `(1900,0)` at the default door height
2100 (wall height default 2700), wall segmentation emits exactly 3 pieces:
`[0,1000]` at full wall height, `[1900,4000]` at full wall height, and the
span `[1000,1900]` at the lintel heights `[2100,2700]` above the door (the
default door height 2100 is below the 2700 wall height, so the door band does
not reach the ceiling). -/
theorem c1_scenarioA_pieces :
    wallPieces ⟨(0, 0), (4000, 0), 200⟩ [⟨(1000, 0), (1900, 0)⟩] []
      (clamp defaultWallHeightMm 1800 6000) defaultDoorHeightMm
      defaultWindowSillMm =
      [⟨0, 1000, 0, 2700⟩, ⟨1000, 1900, 2100, 2700⟩, ⟨1900, 4000, 0, 2700⟩] :=
  scenarioA_pieces

end Skad
